import Mathlib

set_option maxHeartbeats 1000000
set_option maxRecDepth 8000

namespace Akkoproxy

/-! Shallow embedding of the akkoproxy request pipeline: src/image.rs
(content negotiation, conversion predicates), src/proxy.rs (query
override, conversion decision, header merge, handler orchestration) and
src/cache.rs (cache key and cached response shape). -/

/-- Supported image output formats, src/image.rs enum OutputFormat. -/
inductive OutputFormat where
  | avif
  | webp
  | jpeg
  | png
  | original
deriving DecidableEq

/-- Model of Rust f32 values produced by str::parse for Accept q-values.
Finite values are modelled as exact rationals; IEEE rounding is the one
idealization, and the distinguished NaN and infinity values, which are
what the comparison behaviour of the negotiator turns on, are kept. -/
inductive F32 where
  | nan
  | pinf
  | ninf
  | fin (q : ℚ)
deriving DecidableEq

/-- Three-way comparison on exact rationals, standing in for f32
partial_cmp restricted to finite values. -/
def ratCmp (a b : ℚ) : Ordering :=
  if a < b then Ordering.lt else if a = b then Ordering.eq else Ordering.gt

/-- Model of f32 partial_cmp: none exactly when either operand is NaN,
otherwise the total order with minus infinity at the bottom. -/
def pcmp : F32 → F32 → Option Ordering
  | F32.nan, _ => none
  | _, F32.nan => none
  | F32.pinf, F32.pinf => some Ordering.eq
  | F32.pinf, _ => some Ordering.gt
  | _, F32.pinf => some Ordering.lt
  | F32.ninf, F32.ninf => some Ordering.eq
  | F32.ninf, _ => some Ordering.lt
  | _, F32.ninf => some Ordering.gt
  | F32.fin a, F32.fin b => some (ratCmp a b)

/-- Strict numeric less-than derived from partial_cmp: true only when the
comparison yields Less, so a NaN is never below anything. -/
def qltB (a b : F32) : Bool :=
  match pcmp a b with
  | some Ordering.lt => true
  | _ => false

/-- Model of str::split on a separator predicate, on the character list
of a string: it always yields at least one piece, and adjacent
separators yield empty pieces, as in Rust. -/
def splitChars (p : Char → Bool) : List Char → List (List Char)
  | [] => [[]]
  | c :: rest =>
    if p c then [] :: splitChars p rest
    else
      match splitChars p rest with
      | [] => [[c]]
      | h :: t => (c :: h) :: t

/-- Model of str::trim on a character list: drop whitespace from both
ends. -/
def trimChars (cs : List Char) : List Char :=
  ((cs.dropWhile (fun c => c.isWhitespace)).reverse.dropWhile
    (fun c => c.isWhitespace)).reverse

/-- Model of str::split_once at the first occurrence of a separator. -/
def splitOnceChar (sep : Char) : List Char → Option (List Char × List Char)
  | [] => none
  | c :: rest =>
    if c = sep then some ([], rest)
    else
      match splitOnceChar sep rest with
      | some ab => some (c :: ab.1, ab.2)
      | none => none

/-- Model of joining string pieces with a separator, as Vec join. -/
def joinSep (sep : Char) : List (List Char) → List Char
  | [] => []
  | [x] => x
  | x :: xs => x ++ sep :: joinSep sep xs

/-- Whether the second list starts with the first. -/
def leadsWith : List Char → List Char → Bool
  | [], _ => true
  | _ :: _, [] => false
  | a :: as2, b :: bs => a == b && leadsWith as2 bs

/-- Digit run read as a natural number. -/
def digitsToNat (ds : List Char) : Nat :=
  ds.foldl (fun acc c => 10 * acc + (c.toNat - 48)) 0

/-- Exponent tail of Rust's float grammar: empty, or e/E followed by an
optional sign and at least one digit, consuming the whole remainder. -/
def expTail : List Char → Option Int
  | [] => some 0
  | c :: rest =>
    if c = 'e' ∨ c = 'E' then
      match rest with
      | '+' :: ds =>
        if !ds.isEmpty && ds.all Char.isDigit then some (Int.ofNat (digitsToNat ds)) else none
      | '-' :: ds =>
        if !ds.isEmpty && ds.all Char.isDigit then some (-Int.ofNat (digitsToNat ds)) else none
      | ds =>
        if !ds.isEmpty && ds.all Char.isDigit then some (Int.ofNat (digitsToNat ds)) else none
    else none

/-- Value of an unsigned decimal with integer digits ip, fraction digits
fp and decimal exponent e, as the exact rational
digits times ten to the e minus the fraction length. -/
def decimalToRat (ip fp : List Char) (e : Int) : ℚ :=
  let m : Int := Int.ofNat (digitsToNat (ip ++ fp))
  let e2 : Int := e - (fp.length : Int)
  if 0 ≤ e2 then mkRat (m * Int.ofNat (10 ^ e2.toNat)) 1 else mkRat m (10 ^ (-e2).toNat)

/-- Unsigned number of Rust's float grammar:
Count '.'? Count? Exp?  or  '.' Count Exp?. -/
def parseDecimal (cs : List Char) : Option ℚ :=
  let ip := cs.takeWhile Char.isDigit
  let rest1 := cs.dropWhile Char.isDigit
  match rest1 with
  | '.' :: rest2 =>
    let fp := rest2.takeWhile Char.isDigit
    let rest3 := rest2.dropWhile Char.isDigit
    if ip.isEmpty && fp.isEmpty then none
    else (expTail rest3).map (fun e => decimalToRat ip fp e)
  | r => if ip.isEmpty then none else (expTail r).map (fun e => decimalToRat ip [] e)

/-- Model of str::parse::<f32> as applied to q-values: optional sign, then
case-insensitive inf/infinity/nan or the decimal grammar, with exact
rational arithmetic standing in for IEEE rounding. -/
def parseF32 (cs : List Char) : Option F32 :=
  let sb : Bool × List Char :=
    match cs with
    | '+' :: rest => (false, rest)
    | '-' :: rest => (true, rest)
    | r => (false, r)
  let neg := sb.1
  let body := sb.2
  let low := body.map Char.toLower
  if low = "inf".toList ∨ low = "infinity".toList then
    some (if neg then F32.ninf else F32.pinf)
  else if low = "nan".toList then some F32.nan
  else (parseDecimal body).map (fun q => F32.fin (if neg then -q else q))

/-- Quality of one Accept entry: the first parameter segment that, after
trimming, starts with q= and whose remainder parses as a float; 1.0 when
no segment parses (src/image.rs parse_accept_header, find_map). -/
def qualityOfSegments (segs : List (List Char)) : F32 :=
  (segs.findSome? (fun s =>
    match trimChars s with
    | 'q' :: '=' :: rest => parseF32 rest
    | _ => none)).getD (F32.fin 1)

/-- Media-type table of the negotiator with the enable-flag guards of
src/image.rs: a guarded arm whose flag is off falls through to none. -/
def mediaFormatOf (mt : List Char) (enableAvif enableWebp : Bool) : Option OutputFormat :=
  if mt = "image/avif".toList then (if enableAvif then some OutputFormat.avif else none)
  else if mt = "image/webp".toList then (if enableWebp then some OutputFormat.webp else none)
  else if mt = "image/jpeg".toList then some OutputFormat.jpeg
  else if mt = "image/png".toList then some OutputFormat.png
  else if mt = "image/*".toList then some OutputFormat.original
  else if mt = "*/*".toList then some OutputFormat.original
  else none

/-- Candidate list in Accept-header order: each comma entry is trimmed,
split on semicolons, its first segment trimmed as the media type, and the
recognized entries are paired with their quality. -/
def acceptCandidates (accept : String) (enableAvif enableWebp : Bool) :
    List (OutputFormat × F32) :=
  (splitChars (fun c => c = ',') accept.toList).filterMap (fun part =>
    let p := trimChars part
    let segs := splitChars (fun c => c = ';') p
    let mt := trimChars (segs.headD [])
    (mediaFormatOf mt enableAvif enableWebp).map (fun f => (f, qualityOfSegments segs.tail)))

/-- The sort comparator of parse_accept_header, literally
b.quality.partial_cmp(a.quality).unwrap_or(Equal): descending by quality
and Equal for every comparison against a NaN. -/
def cmpCand (a b : OutputFormat × F32) : Ordering :=
  (pcmp b.2 a.2).getD Ordering.eq

/-- Insertion of a new element into the already sorted reversed run:
the element passes over the strictly Greater elements it meets and stops
at the first other one, exactly how Rust's stable insertion sort shifts a
new element leftwards. -/
def insRev (x : OutputFormat × F32) : List (OutputFormat × F32) → List (OutputFormat × F32)
  | [] => [x]
  | y :: ys => if cmpCand y x = Ordering.gt then y :: insRev x ys else x :: y :: ys

/-- Insert into a sorted run, scanning from its right end. -/
def insSorted (x : OutputFormat × F32) (l : List (OutputFormat × F32)) :
    List (OutputFormat × F32) :=
  (insRev x l.reverse).reverse

/-- Model of slice::sort_by with the negotiator's comparator: a stable
insertion sort. For a comparator that is a total preorder every stable
sort yields the same list, and on the short runs in play Rust's stable
sort is itself insertion based, so incomparable NaN entries are placed as
the compiled code places them. -/
def sortByQualityDesc (l : List (OutputFormat × F32)) : List (OutputFormat × F32) :=
  l.foldl (fun acc x => insSorted x acc) []

/-- src/image.rs parse_accept_header: sort candidates by quality
descending and take the first, or Original when there is none. -/
def parse_accept_header (accept : String) (enableAvif enableWebp : Bool) : OutputFormat :=
  (((sortByQualityDesc (acceptCandidates accept enableAvif enableWebp)).head?).map
    Prod.fst).getD OutputFormat.original

/-- One step of the specification-side scan: keep the current best and
replace it only when the next candidate's quality is strictly
numerically higher. -/
def selectStep (best : Option (OutputFormat × F32)) (c : OutputFormat × F32) :
    Option (OutputFormat × F32) :=
  match best with
  | none => some c
  | some b => if qltB b.2 c.2 then some c else some b

/-- Earliest candidate of maximal quality, by a left scan that replaces
the best only on strict numeric improvement. -/
def selectBest (l : List (OutputFormat × F32)) : Option (OutputFormat × F32) :=
  l.foldl selectStep none

/-- Specification-side selector, written from the claim's words: the
recognized-and-enabled candidate whose quality is numerically highest,
the earliest on ties, and Original when there are no candidates. -/
def specSelect (l : List (OutputFormat × F32)) : OutputFormat :=
  ((selectBest l).map Prod.fst).getD OutputFormat.original

/-- Every element of l compares strictly Greater than x under the
negotiator's comparator. -/
def allGt (x : OutputFormat × F32) (l : List (OutputFormat × F32)) : Bool :=
  l.all (fun y => cmpCand y x == Ordering.gt)

/-- src/image.rs is_image_content_type. -/
def is_image_content_type (ct : String) : Bool :=
  leadsWith "image/".toList ct.toList

/-- src/image.rs format_from_content_type. -/
def format_from_content_type (ct : String) : Option OutputFormat :=
  if ct = "image/avif" then some OutputFormat.avif
  else if ct = "image/webp" then some OutputFormat.webp
  else if ct = "image/jpeg" ∨ ct = "image/jpg" then some OutputFormat.jpeg
  else if ct = "image/png" then some OutputFormat.png
  else none

/-- src/image.rs format_satisfies. -/
def format_satisfies (f w : OutputFormat) : Bool :=
  f == w || w == OutputFormat.original

/-- src/proxy.rs should_convert_image, with its early returns written as
an if chain; contentSize > maxSize is the third bailout. -/
def should_convert_image (contentType : String) (upstreamFormat : Option OutputFormat)
    (desiredFormat : OutputFormat) (contentSize maxSize : Nat) : Bool :=
  if !(is_image_content_type contentType) then false
  else if desiredFormat == OutputFormat.original then false
  else if maxSize < contentSize then false
  else !(match upstreamFormat with
    | some f => format_satisfies f desiredFormat
    | none => false)

/-- Normalization of a format parameter value in src/proxy.rs
parse_query_for_format: plus to space, trim, lowercase, then the exact
words avif or webp. -/
def normalizedFormatValue (v : List Char) : Option OutputFormat :=
  let t := (trimChars (v.map (fun c => if c = '+' then ' ' else c))).map Char.toLower
  if t = "avif".toList then some OutputFormat.avif
  else if t = "webp".toList then some OutputFormat.webp
  else none

/-- Loop body of parse_query_for_format: a format parameter overwrites the
running format value (even with none) and is dropped; every other
parameter, including valueless ones, is appended to the kept list. -/
def queryStep (st : Option OutputFormat × List (List Char)) (param : List Char) :
    Option OutputFormat × List (List Char) :=
  match splitOnceChar '=' param with
  | some kv =>
    if kv.1 = "format".toList then (normalizedFormatValue kv.2, st.2)
    else (st.1, st.2 ++ [param])
  | none => (st.1, st.2 ++ [param])

/-- src/proxy.rs parse_query_for_format. -/
def parse_query_for_format (query : String) : Option OutputFormat × String :=
  let r := (splitChars (fun c => c = '&') query.toList).foldl queryStep (none, [])
  (r.1, String.mk (joinSep '&' r.2))

/-- Specification-side view of one parameter: some decision when it is a
format parameter with a value, none otherwise. -/
def formatDecisionOf (p : List Char) : Option (Option OutputFormat) :=
  match splitOnceChar '=' p with
  | some kv => if kv.1 = "format".toList then some (normalizedFormatValue kv.2) else none
  | none => none

/-- A parameter that the query override consumes. -/
def isFormatParam (p : List Char) : Bool :=
  (formatDecisionOf p).isSome

/-- Specification-side format decision: the normalized value of the last
format parameter of the query, none when there is no format parameter. -/
def specLastFormat (q : String) : Option OutputFormat :=
  ((((splitChars (fun c => c = '&') q.toList)).filterMap formatDecisionOf).getLast?).getD none

/-- Specification-side forwarded query: the non-format parameters in
their original order, rejoined with ampersands. -/
def specRemainingQuery (q : String) : String :=
  String.mk
    (joinSep '&' ((splitChars (fun c => c = '&') q.toList).filter (fun p => !(isFormatParam p))))

/-- Rust Debug rendering of OutputFormat, used for the cache key tag. -/
def formatTag : OutputFormat → String
  | OutputFormat.avif => "Avif"
  | OutputFormat.webp => "WebP"
  | OutputFormat.jpeg => "Jpeg"
  | OutputFormat.png => "Png"
  | OutputFormat.original => "Original"

/-- Resource identity of the cache key: path, plus question mark and the
original raw query when that query is nonempty (src/proxy.rs). -/
def resourceId (path query : String) : String :=
  path ++ (if query = "" then "" else "?" ++ query)

/-- src/cache.rs CacheKey: resource identity plus format tag, with the
derived structural equality and hash. -/
structure CacheKey where
  path : String
  format : String
deriving DecidableEq

/-- The cache key the handler builds for a request. -/
def cacheKeyOf (path query : String) (f : OutputFormat) : CacheKey :=
  ⟨resourceId path query, formatTag f⟩

/-- src/cache.rs CachedResponse. Header names are modelled lowercase, as
the HeaderMap type normalizes them. -/
structure CachedResponse where
  data : List Nat
  contentType : String
  upstreamHeaders : Option (List (String × String))
deriving DecidableEq

/-- The configuration fields the request pipeline reads. -/
structure MConfig where
  behindCloudflareFree : Bool
  preserveUpstreamHeaders : Bool
  viaHeader : String
  maxItemSize : Nat
  enableAvif : Bool
  enableWebp : Bool

/-- An upstream response as the handler sees it: status, header multimap
in iteration order with lowercase names, and the materialized body. -/
structure UpstreamResp where
  status : Nat
  headers : List (String × String)
  body : List Nat
deriving DecidableEq

/-- An assembled client response. -/
structure BuiltResp where
  status : Nat
  headers : List (String × String)
  body : List Nat
deriving DecidableEq

/-- The EXCLUDED_HEADERS constant of src/proxy.rs. -/
def excludedHeaderNames : List String :=
  ["content-length", "content-type", "transfer-encoding", "connection", "via", "cache-control"]

/-- src/proxy.rs should_exclude_header: the constant list plus the cache
status header. -/
def should_exclude_header (k : String) : Bool :=
  excludedHeaderNames.contains k || k == "x-cache-status"

/-- Name of the CORS header. -/
def acaoName : String :=
  "access-control-allow-origin"

/-- Upstream headers copied into a response: everything surviving the
exclusion list, or nothing when no upstream headers were kept. -/
def copyUpstream (uh : Option (List (String × String))) : List (String × String) :=
  match uh with
  | some hs => hs.filter (fun kv => !(should_exclude_header kv.1))
  | none => []

/-- The upstream-has-CORS test of both response builders:
upstream_headers.map(contains_key).unwrap_or(false). -/
def upstreamHasCors (uh : Option (List (String × String))) : Bool :=
  match uh with
  | some hs => hs.any (fun kv => kv.1 == acaoName)
  | none => false

/-- src/proxy.rs build_response: status 200; copied upstream headers, then
the proxy-owned headers, the optional Vary, and the CORS star only when
the kept upstream headers do not already carry one. -/
def buildResponse (data : List Nat) (contentType via : String)
    (uh : Option (List (String × String))) (isCacheHit behindCf : Bool) : BuiltResp :=
  { status := 200
    headers :=
      copyUpstream uh ++
        [("content-type", contentType), ("via", via),
         ("cache-control", "public, max-age=31536000, immutable"),
         ("x-cache-status", if isCacheHit then "HIT" else "MISS")] ++
        (if behindCf then [("vary", "Accept")] else []) ++
        (if upstreamHasCors uh then [] else [(acaoName, "*")])
    body := data }

/-- src/proxy.rs build_response_with_status: the upstream status; copied
upstream headers, the Via header, and the CORS star only when the kept
upstream headers do not already carry one. -/
def buildResponseWithStatus (data : List Nat) (status : Nat) (via : String)
    (uh : Option (List (String × String))) : BuiltResp :=
  { status := status
    headers :=
      copyUpstream uh ++ [("via", via)] ++
        (if upstreamHasCors uh then [] else [(acaoName, "*")])
    body := data }

/-- StatusCode::is_success. -/
def isSuccess (s : Nat) : Bool :=
  decide (200 ≤ s) && decide (s ≤ 299)

/-- Content type of an upstream response: the first content-type header
value, or application/octet-stream. -/
def contentTypeOf (u : UpstreamResp) : String :=
  ((u.headers.find? (fun kv => kv.1 == "content-type")).map Prod.snd).getD
    "application/octet-stream"

/-- The query-override step of the handler: run parse_query_for_format
only when behind_cloudflare_free is on and the raw query is nonempty. -/
def resolveQuery (cfg : MConfig) (q : String) : Option OutputFormat × String :=
  if cfg.behindCloudflareFree && !(q == "") then parse_query_for_format q else (none, q)

/-- Desired output format of a request: the query override when it
produced a format, else the Accept negotiation with the header defaulted
to star slash star when absent. -/
def desiredFormatOf (cfg : MConfig) (q : String) (accept : Option String) : OutputFormat :=
  ((resolveQuery cfg q).1).getD
    (parse_accept_header (accept.getD "*/*") cfg.enableAvif cfg.enableWebp)

/-- Upstream headers kept for response assembly and caching, gated on the
preserve_upstream_headers flag. -/
def preservedHeaders (cfg : MConfig) (u : UpstreamResp) : Option (List (String × String)) :=
  if cfg.preserveUpstreamHeaders then some u.headers else none

/-- Result of one run of the proxy handler. The fetched constructor also
records the cache insertion the handler performs and whether the
conversion branch was taken, both of which the code logs. -/
inductive Outcome where
  | redirectRoot
  | pathNotAllowed
  | hit (resp : BuiltResp)
  | fetched (resp : BuiltResp) (insert : Option (CacheKey × CachedResponse))
      (convAttempted : Bool)
deriving DecidableEq

/-- src/proxy.rs proxy_handler on one request. The upstream fetch and the
image converter are effects, passed in as the response the fetch would
produce and the function the converter computes; the cache is the map
the moka cache currently holds (time-to-live expiry is abstracted into
whether the entry is still present). -/
def proxyHandler (cfg : MConfig) (cache : CacheKey → Option CachedResponse)
    (upstream : UpstreamResp)
    (convert : List Nat → OutputFormat → Except String (List Nat × String))
    (path q : String) (accept : Option String) : Outcome :=
  if path == "/" then Outcome.redirectRoot
  else if !(leadsWith "/media".toList path.toList || leadsWith "/proxy".toList path.toList) then
    Outcome.pathNotAllowed
  else
    match cache (cacheKeyOf path q (desiredFormatOf cfg q accept)) with
    | some c =>
      Outcome.hit (buildResponse c.data c.contentType cfg.viaHeader c.upstreamHeaders true
        cfg.behindCloudflareFree)
    | none =>
      if !(isSuccess upstream.status) then
        Outcome.fetched
          (buildResponseWithStatus upstream.body upstream.status cfg.viaHeader
            (preservedHeaders cfg upstream)) none false
      else
        let uh := preservedHeaders cfg upstream
        let ct := contentTypeOf upstream
        let needs := should_convert_image ct (format_from_content_type ct)
          (desiredFormatOf cfg q accept) upstream.body.length cfg.maxItemSize
        let res :=
          if needs then
            match convert upstream.body (desiredFormatOf cfg q accept) with
            | Except.ok dm => dm
            | Except.error _ => (upstream.body, ct)
          else (upstream.body, ct)
        Outcome.fetched
          (buildResponse res.1 res.2 cfg.viaHeader uh false cfg.behindCloudflareFree)
          (if res.1.length ≤ cfg.maxItemSize then
            some (cacheKeyOf path q (desiredFormatOf cfg q accept), ⟨res.1, res.2, uh⟩)
          else none)
          needs

/-- Insertion into the cache map, as moka insert on a key. -/
def insertCache (m : CacheKey → Option CachedResponse) (k : CacheKey) (v : CachedResponse) :
    CacheKey → Option CachedResponse :=
  fun k2 => if k2 = k then some v else m k2

/-- Headers of a proxied outcome, empty for the two non-proxied ones. -/
def outcomeHeaders : Outcome → List (String × String)
  | Outcome.hit r => r.headers
  | Outcome.fetched r _ _ => r.headers
  | _ => []

/-- Body string of src/proxy.rs metrics_handler. -/
def metricsBody (entryCount weightedSize : Nat) : String :=
  "# Cache Statistics\n" ++ "cache_entries " ++ toString entryCount ++ "\n" ++
    "cache_size_bytes " ++ toString weightedSize ++ "\n"

/-- A metrics reply: status, content type, body. -/
structure MetricsResponse where
  status : Nat
  contentType : String
  body : String
deriving DecidableEq

/-- src/proxy.rs metrics_handler, applied to the entry count and weighted
size the cache reports. -/
def metricsResponse (entryCount weightedSize : Nat) : MetricsResponse :=
  ⟨200, "text/plain; version=0.0.4", metricsBody entryCount weightedSize⟩

/-- A converter run whose decode or encode always fails. -/
def convertAlwaysFails : List Nat → OutputFormat → Except String (List Nat × String) :=
  fun _ _ => Except.error "decode failure"

/-- The empty cache state. -/
def emptyCache : CacheKey → Option CachedResponse :=
  fun _ => none

/-- A configuration with header preservation and the query override off. -/
def cfgNoPreserve : MConfig :=
  ⟨false, false, "akkoproxy/0.1.0", 100, true, true⟩

/-- A configuration with header preservation and the query override on. -/
def cfgPreserve : MConfig :=
  ⟨true, true, "akkoproxy/0.1.0", 100, true, true⟩

/-- An upstream success response that already carries a CORS header. -/
def upstreamCors : UpstreamResp :=
  ⟨200, [("content-type", "text/plain"),
         ("access-control-allow-origin", "https://example.com")], [1, 2, 3]⟩

/-- A small upstream JPEG success response. -/
def upstreamJpeg : UpstreamResp :=
  ⟨200, [("content-type", "image/jpeg")], [9, 9]⟩

/-- An upstream 404 response. -/
def upstream404 : UpstreamResp :=
  ⟨404, [("content-type", "text/html")], [7]⟩

/-- A cached entry for an Avif rendition. -/
def cachedAvifEntry : CachedResponse :=
  ⟨[5], "image/avif", none⟩

/-- A cache holding exactly one entry, keyed by the original path and the
original pre-override raw query plus the Avif tag. -/
def cacheOneAvif : CacheKey → Option CachedResponse :=
  fun k =>
    if k = ⟨"/media/a.jpg?format=avif&x=1", "Avif"⟩ then some cachedAvifEntry else none

/-! Theorems. First the order facts about the f32 model that the
negotiator's sort depends on, then the head characterization of the
stable sort, then the claims. -/

theorem ratCmp_lt_of {a b : ℚ} (h : a < b) : ratCmp a b = Ordering.lt := by
  simp [ratCmp, h]

theorem ratCmp_eq_of {a b : ℚ} (h : a = b) : ratCmp a b = Ordering.eq := by
  simp [ratCmp, h, lt_irrefl]

theorem ratCmp_gt_of {a b : ℚ} (h : b < a) : ratCmp a b = Ordering.gt := by
  have h1 : ¬ a < b := not_lt.mpr h.le
  have h2 : ¬ a = b := h.ne'
  simp [ratCmp, h1, h2]

theorem ratCmp_eq_lt {a b : ℚ} : ratCmp a b = Ordering.lt ↔ a < b := by
  constructor
  · intro h
    rcases lt_trichotomy a b with hh | hh | hh
    · exact hh
    · rw [ratCmp_eq_of hh] at h; exact absurd h (by simp)
    · rw [ratCmp_gt_of hh] at h; exact absurd h (by simp)
  · exact ratCmp_lt_of

theorem ratCmp_eq_gt {a b : ℚ} : ratCmp a b = Ordering.gt ↔ b < a := by
  constructor
  · intro h
    rcases lt_trichotomy a b with hh | hh | hh
    · rw [ratCmp_lt_of hh] at h; exact absurd h (by simp)
    · rw [ratCmp_eq_of hh] at h; exact absurd h (by simp)
    · exact hh
  · exact ratCmp_gt_of

theorem qltB_true_iff {a b : F32} : qltB a b = true ↔ pcmp a b = some Ordering.lt := by
  unfold qltB
  rcases h : pcmp a b with _ | o
  · simp
  · cases o <;> simp

theorem qltB_self (a : F32) : qltB a a = false := by
  rcases a with _ | _ | _ | x <;> simp [qltB, pcmp, ratCmp, lt_irrefl]

theorem qltB_of_pcmp_gt {a b : F32} (h : pcmp a b = some Ordering.gt) : qltB a b = false := by
  unfold qltB
  rw [h]

theorem pcmp_lt_iff_gt {a b : F32} :
    pcmp a b = some Ordering.lt ↔ pcmp b a = some Ordering.gt := by
  rcases a with _ | _ | _ | x <;> rcases b with _ | _ | _ | y <;>
    simp [pcmp, ratCmp_eq_lt, ratCmp_eq_gt]

theorem pcmp_gt_trans {a b c : F32} (hc : c ≠ F32.nan) (h1 : qltB a c = false)
    (h2 : qltB a b = true) : pcmp b c = some Ordering.gt := by
  rw [qltB_true_iff] at h2
  have h1' : ¬ pcmp a c = some Ordering.lt := by
    intro hlt
    rw [← qltB_true_iff] at hlt
    rw [h1] at hlt
    exact absurd hlt (by simp)
  rcases a with _ | _ | _ | x <;> rcases b with _ | _ | _ | y <;>
    rcases c with _ | _ | _ | z <;>
    simp_all [pcmp, ratCmp_eq_lt, ratCmp_eq_gt, not_lt]
  linarith

theorem ordBeq_iff {o o2 : Ordering} : (o == o2) = true ↔ o = o2 := by
  cases o <;> cases o2 <;> decide

theorem insRev_ne_nil (x : OutputFormat × F32) (r : List (OutputFormat × F32)) :
    insRev x r ≠ [] := by
  cases r with
  | nil => simp [insRev]
  | cons y ys =>
    unfold insRev
    split <;> simp

theorem getLast?_insRev (x : OutputFormat × F32) (r : List (OutputFormat × F32)) :
    (insRev x r).getLast? = if allGt x r then some x else r.getLast? := by
  induction r with
  | nil => simp [insRev, allGt]
  | cons y ys ih =>
    by_cases h : cmpCand y x = Ordering.gt
    · rw [insRev, if_pos h]
      obtain ⟨z, zs, hzz⟩ : ∃ z zs, insRev x ys = z :: zs := by
        rcases hm : insRev x ys with _ | ⟨z, zs⟩
        · exact absurd hm (insRev_ne_nil x ys)
        · exact ⟨z, zs, rfl⟩
      rw [hzz, List.getLast?_cons_cons, ← hzz, ih]
      have hbeq : (cmpCand y x == Ordering.gt) = true := ordBeq_iff.mpr h
      have hcons : allGt x (y :: ys) = allGt x ys := by
        simp only [allGt, List.all_cons, hbeq, Bool.true_and]
      rw [hcons]
      by_cases hall : allGt x ys = true
      · rw [if_pos hall, if_pos hall]
      · have hallf : allGt x ys = false := Bool.eq_false_iff.mpr hall
        rw [hallf]
        have hys : ys ≠ [] := by
          intro he
          subst he
          exact hall (by simp [allGt])
        obtain ⟨w, ws, hws⟩ : ∃ w ws, ys = w :: ws := by
          rcases ys with _ | ⟨w, ws⟩
          · exact absurd rfl hys
          · exact ⟨w, ws, rfl⟩
        rw [hws, List.getLast?_cons_cons]
    · rw [insRev, if_neg h]
      have hbeq : (cmpCand y x == Ordering.gt) = false := by
        cases hb : (cmpCand y x == Ordering.gt)
        · rfl
        · exact absurd (ordBeq_iff.mp hb) h
      have hfalse : allGt x (y :: ys) = false := by
        simp only [allGt, List.all_cons, hbeq, Bool.false_and]
      rw [hfalse, List.getLast?_cons_cons]
      simp

theorem head?_insSorted (x : OutputFormat × F32) (l : List (OutputFormat × F32)) :
    (insSorted x l).head? = if allGt x l then some x else l.head? := by
  unfold insSorted
  rw [List.head?_reverse, getLast?_insRev]
  have hall : allGt x l.reverse = allGt x l := by
    simp [allGt, List.all_reverse]
  rw [hall, List.getLast?_reverse]

theorem mem_insRev {y x : OutputFormat × F32} {r : List (OutputFormat × F32)} :
    y ∈ insRev x r ↔ y = x ∨ y ∈ r := by
  induction r with
  | nil => simp [insRev]
  | cons z zs ih =>
    unfold insRev
    split
    · simp [ih]
      tauto
    · simp

theorem mem_insSorted {y x : OutputFormat × F32} {l : List (OutputFormat × F32)} :
    y ∈ insSorted x l ↔ y = x ∨ y ∈ l := by
  unfold insSorted
  rw [List.mem_reverse, mem_insRev, List.mem_reverse]

theorem mem_sortFold (l : List (OutputFormat × F32)) (acc : List (OutputFormat × F32))
    {y : OutputFormat × F32} :
    y ∈ l.foldl (fun a x => insSorted x a) acc ↔ y ∈ acc ∨ y ∈ l := by
  induction l generalizing acc with
  | nil => simp
  | cons x xs ih =>
    rw [List.foldl_cons, ih, mem_insSorted]
    simp
    tauto

theorem mem_sortByQualityDesc {y : OutputFormat × F32} {l : List (OutputFormat × F32)} :
    y ∈ sortByQualityDesc l ↔ y ∈ l := by
  unfold sortByQualityDesc
  rw [mem_sortFold]
  simp

theorem selectFold_isSome (l : List (OutputFormat × F32)) :
    ∀ b, (l.foldl selectStep (some b)).isSome = true := by
  induction l with
  | nil => intro b; rfl
  | cons c cs ih =>
    intro b
    rw [List.foldl_cons]
    cases h : qltB b.2 c.2
    · have hs : selectStep (some b) c = some b := by simp [selectStep, h]
      rw [hs]
      exact ih b
    · have hs : selectStep (some b) c = some c := by simp [selectStep, h]
      rw [hs]
      exact ih c

theorem selectBest_eq_none {l : List (OutputFormat × F32)} (h : selectBest l = none) :
    l = [] := by
  cases l with
  | nil => rfl
  | cons c cs =>
    exfalso
    have hsome := selectFold_isSome cs c
    unfold selectBest at h
    rw [List.foldl_cons] at h
    have hstep : selectStep none c = some c := rfl
    rw [hstep] at h
    rw [h] at hsome
    exact absurd hsome (by simp)

theorem cmpCand_gt_iff {y x : OutputFormat × F32} :
    cmpCand y x = Ordering.gt ↔ pcmp x.2 y.2 = some Ordering.gt := by
  unfold cmpCand
  rcases hp : pcmp x.2 y.2 with _ | o
  · simp
  · cases o <;> simp

theorem sortHead_key :
    ∀ l : List (OutputFormat × F32), (∀ c ∈ l, c.2 ≠ F32.nan) →
      (sortByQualityDesc l).head? = selectBest l ∧
        ∀ b, selectBest l = some b → ∀ y ∈ l, qltB b.2 y.2 = false := by
  intro l
  induction l using List.reverseRecOn with
  | nil =>
    intro _
    exact ⟨rfl, fun b hb => by simp [selectBest] at hb⟩
  | append_singleton l x ih =>
    intro hN
    obtain ⟨ih1, ih2⟩ := ih (fun c hc => hN c (List.mem_append_left _ hc))
    have hsort : sortByQualityDesc (l ++ [x]) = insSorted x (sortByQualityDesc l) := by
      unfold sortByQualityDesc
      rw [List.foldl_append]
      rfl
    have hsel : selectBest (l ++ [x]) = selectStep (selectBest l) x := by
      unfold selectBest
      rw [List.foldl_append]
      rfl
    rcases hB : selectBest l with _ | b
    · have hl : l = [] := selectBest_eq_none hB
      subst hl
      constructor
      · rw [hsort, hsel, hB]
        simp [sortByQualityDesc, insSorted, insRev, selectStep]
      · intro b hb y hy
        rw [hsel, hB] at hb
        have hbx : b = x := by
          simp [selectStep] at hb
          exact hb.symm
        subst hbx
        simp at hy
        rw [hy]
        exact qltB_self b.2
    · cases hlt : qltB b.2 x.2
      · have hsel2 : selectBest (l ++ [x]) = some b := by
          rw [hsel, hB]
          simp [selectStep, hlt]
        have hbmem : b ∈ sortByQualityDesc l := by
          rcases hm : sortByQualityDesc l with _ | ⟨z, zs⟩
          · rw [hm, hB] at ih1
            exact absurd ih1 (by simp)
          · rw [hm, hB] at ih1
            have hz : z = b := by
              simpa using ih1
            rw [hz]
            exact List.mem_cons_self _ _
        have hcb : ¬ cmpCand b x = Ordering.gt := by
          intro hgt
          rw [cmpCand_gt_iff] at hgt
          rw [← pcmp_lt_iff_gt] at hgt
          rw [← qltB_true_iff] at hgt
          rw [hlt] at hgt
          exact absurd hgt (by simp)
        have hallf : allGt x (sortByQualityDesc l) = false := by
          apply Bool.eq_false_iff.mpr
          intro hT
          have hb2 := List.all_eq_true.mp hT b hbmem
          exact hcb (ordBeq_iff.mp hb2)
        constructor
        · rw [hsort, head?_insSorted, hallf, hsel2]
          simp
          rw [ih1, hB]
        · intro b2 hb2 y hy
          rw [hsel2] at hb2
          have hbb : b = b2 := by simpa using hb2
          rw [← hbb]
          rcases List.mem_append.mp hy with hyl | hyx
          · exact ih2 b hB y hyl
          · have hyx2 : y = x := by simpa using hyx
            rw [hyx2]
            exact hlt
      · have hsel2 : selectBest (l ++ [x]) = some x := by
          rw [hsel, hB]
          simp [selectStep, hlt]
        have hgtAll : ∀ y ∈ sortByQualityDesc l, pcmp x.2 y.2 = some Ordering.gt := by
          intro y hy
          have hyl : y ∈ l := mem_sortByQualityDesc.mp hy
          have hyn : y.2 ≠ F32.nan := hN y (List.mem_append_left _ hyl)
          exact pcmp_gt_trans hyn (ih2 b hB y hyl) hlt
        have hall : allGt x (sortByQualityDesc l) = true := by
          apply List.all_eq_true.mpr
          intro y hy
          exact ordBeq_iff.mpr (cmpCand_gt_iff.mpr (hgtAll y hy))
        constructor
        · rw [hsort, head?_insSorted, hall, hsel2]
          simp
        · intro b2 hb2 y hy
          rw [hsel2] at hb2
          have hbb : x = b2 := by simpa using hb2
          rw [← hbb]
          rcases List.mem_append.mp hy with hyl | hyx
          · have hyn : y.2 ≠ F32.nan := hN y (List.mem_append_left _ hyl)
            exact qltB_of_pcmp_gt (pcmp_gt_trans hyn (ih2 b hB y hyl) hlt)
          · have hyx2 : y = x := by simpa using hyx
            rw [hyx2]
            exact qltB_self x.2

/-- Claim C1, amended. For every Accept header and flag pair such that no
candidate's q value parses as NaN, parse_accept_header returns the
recognized-and-enabled format whose quality (the first semicolon segment
parsing as a q float, 1.0 when none parses) is numerically highest, the
earliest entry winning ties, and Original when no entry is recognized and
enabled. The original claim also covered headers with NaN qualities; the
counterexample shows the sort comparator is not transitive there and the
result can be an entry that is neither maximal nor tied with the
maximum. -/
theorem c1_accept_negotiation (accept : String) (enableAvif enableWebp : Bool)
    (hN : ∀ c ∈ acceptCandidates accept enableAvif enableWebp, c.2 ≠ F32.nan) :
    parse_accept_header accept enableAvif enableWebp =
      specSelect (acceptCandidates accept enableAvif enableWebp) := by
  unfold parse_accept_header specSelect
  rw [(sortHead_key _ hN).1]

/-- Witness for C1 at a concrete header with explicit q values. -/
theorem c1_accept_negotiation_witness :
    parse_accept_header "image/webp;q=1.0,image/avif;q=0.8,image/jpeg;q=0.5" true true =
      specSelect
        (acceptCandidates "image/webp;q=1.0,image/avif;q=0.8,image/jpeg;q=0.5" true true) :=
  c1_accept_negotiation "image/webp;q=1.0,image/avif;q=0.8,image/jpeg;q=0.5" true true
    (by decide)

/-- Counterexample to claim C1 as stated. On the header
image/jpeg;q=0.5,image/png;q=nan,image/png;q=1.0 the candidate list is
jpeg at one half, png at NaN, png at one: the numerically highest quality
is 1.0 on a png entry, and the jpeg entry is neither NaN nor tied with
it, yet the code returns Jpeg, because NaN compares Equal to both
neighbours while one half and one never get compared. -/
theorem c1_counterexample :
    parse_accept_header "image/jpeg;q=0.5,image/png;q=nan,image/png;q=1.0" true true =
        OutputFormat.jpeg ∧
      acceptCandidates "image/jpeg;q=0.5,image/png;q=nan,image/png;q=1.0" true true =
        [(OutputFormat.jpeg, F32.fin (mkRat 1 2)), (OutputFormat.png, F32.nan),
          (OutputFormat.png, F32.fin 1)] ∧
      specSelect
          (acceptCandidates "image/jpeg;q=0.5,image/png;q=nan,image/png;q=1.0" true true) =
        OutputFormat.png := by
  refine ⟨by decide, by decide, by decide⟩

/-- Claim C2. should_convert_image, applied as the handler applies it (the
upstream format is format_from_content_type of the content type, the
size bound is the configured max cacheable item size), is true exactly
when the content type starts with image/, the desired format is not
Original, the body fits the bound, and the upstream's own declared
format does not satisfy the desired one; and format_satisfies holds
exactly for equal formats or a desired Original. An image content type
mapping to no known format, such as image/gif, passes the last test. -/
theorem c2_conversion_decision :
    (∀ (ct : String) (desired : OutputFormat) (n maxSize : Nat),
      should_convert_image ct (format_from_content_type ct) desired n maxSize = true ↔
        (is_image_content_type ct = true ∧ desired ≠ OutputFormat.original ∧ n ≤ maxSize ∧
          match format_from_content_type ct with
          | some f => format_satisfies f desired = false
          | none => True)) ∧
    (∀ f w : OutputFormat, format_satisfies f w = true ↔ (f = w ∨ w = OutputFormat.original)) := by
  constructor
  · intro ct desired n maxSize
    unfold should_convert_image
    split_ifs with h1 h2 h3
    · rw [Bool.not_eq_true'] at h1
      simp [h1]
    · rw [beq_iff_eq] at h2
      simp [h2]
    · have hn : ¬ n ≤ maxSize := not_le.mpr h3
      simp [hn]
    · have himg : is_image_content_type ct = true := by
        cases hi : is_image_content_type ct
        · exfalso
          apply h1
          rw [hi]
          decide
        · rfl
      have hdes : desired ≠ OutputFormat.original := by
        intro he
        rw [he] at h2
        exact h2 (by decide)
      have hn : n ≤ maxSize := Nat.le_of_not_lt h3
      rcases hu : format_from_content_type ct with _ | f
      · simp [himg, hdes, hn]
      · rw [Bool.not_eq_true']
        simp [himg, hdes, hn]
  · intro f w
    cases f <;> cases w <;> decide

/-- Witness for C2: an image/gif body within the size bound and a desired
Avif format is converted. -/
theorem c2_conversion_decision_witness :
    should_convert_image "image/gif" (format_from_content_type "image/gif")
      OutputFormat.avif 5 10 = true :=
  (c2_conversion_decision.1 "image/gif" OutputFormat.avif 5 10).mpr
    ⟨by decide, by decide, by decide, trivial⟩

/-- The default of getLast? over a cons is absorbed by the head. -/
theorem getLast?_cons_getD {α : Type} (a x : α) (l : List α) :
    ((a :: l).getLast?).getD x = (l.getLast?).getD a := by
  induction l generalizing a x with
  | nil => rfl
  | cons b t ih =>
    rw [List.getLast?_cons_cons]
    rw [ih b x, ih b a]

/-- The loop of parse_query_for_format, characterized: the format decision
is the one of the last format parameter, and the kept parameters are the
non-format ones in order. -/
theorem queryFold_eq (ps : List (List Char)) :
    ∀ (f0 : Option OutputFormat) (acc0 : List (List Char)),
      ps.foldl queryStep (f0, acc0) =
        (((ps.filterMap formatDecisionOf).getLast?).getD f0,
          acc0 ++ ps.filter (fun p => !(isFormatParam p))) := by
  induction ps with
  | nil =>
    intro f0 acc0
    simp
  | cons p ps ih =>
    intro f0 acc0
    rw [List.foldl_cons]
    rcases hd : formatDecisionOf p with _ | d
    · have hstep : queryStep (f0, acc0) p = (f0, acc0 ++ [p]) := by
        unfold queryStep
        unfold formatDecisionOf at hd
        split
        next kv heq =>
          simp only [heq] at hd
          split_ifs with hk
          · rw [if_pos hk] at hd
            exact absurd hd (by simp)
          · rfl
        next heq => rfl
      have hkeep : isFormatParam p = false := by
        unfold isFormatParam
        rw [hd]
        rfl
      rw [hstep, ih]
      simp [List.filterMap_cons, hd, List.filter_cons, hkeep]
    · have hstep : queryStep (f0, acc0) p = (d, acc0) := by
        unfold queryStep
        unfold formatDecisionOf at hd
        split
        next kv heq =>
          simp only [heq] at hd
          split_ifs with hk
          · rw [if_pos hk] at hd
            have hdv : normalizedFormatValue kv.2 = d := by
              simpa using hd
            rw [hdv]
          · rw [if_neg hk] at hd
            exact absurd hd (by simp)
        next heq =>
          simp only [heq] at hd
          exact absurd hd (by simp)
      have hkeep : isFormatParam p = true := by
        unfold isFormatParam
        rw [hd]
        rfl
      rw [hstep, ih]
      simp only [List.filterMap_cons, hd, List.filter_cons, hkeep]
      simp [getLast?_cons_getD]

/-- Claim C3, amended. The query override is decided by the last format
parameter of the raw query: parse_query_for_format returns that
parameter's normalized value (avif or webp exactly, else no override)
together with the non-format parameters joined in their original order;
and whenever the override mode is on, the query is nonempty and the
parser yields a format, the handler uses it for any Accept header. The
original claim let any single format parameter with a good value decide;
the counterexample shows a later format parameter overwrites it. -/
theorem c3_query_override (q : String) (cfg : MConfig) (accept : Option String) :
    parse_query_for_format q = (specLastFormat q, specRemainingQuery q) ∧
      (cfg.behindCloudflareFree = true → q ≠ "" → ∀ f : OutputFormat,
        (parse_query_for_format q).1 = some f → desiredFormatOf cfg q accept = f) := by
  constructor
  · unfold parse_query_for_format specLastFormat specRemainingQuery
    rw [queryFold_eq]
    simp
  · intro hb hq f hf
    unfold desiredFormatOf resolveQuery
    rw [hb]
    have hq2 : (q == "") = false := by
      cases hqq : q == ""
      · rfl
      · have : q = "" := by simpa using hqq
        exact absurd this hq
    rw [hq2]
    simp only [Bool.not_false, Bool.and_self, if_true]
    rw [hf]
    rfl

/-- Witness for C3: format=AVIF with a trailing parameter resolves to Avif
for any Accept header, and the parameter is stripped. -/
theorem c3_query_override_witness :
    parse_query_for_format "format=AVIF&x=1" = (some OutputFormat.avif, "x=1") ∧
      desiredFormatOf cfgPreserve "format=AVIF&x=1" (some "image/png") = OutputFormat.avif := by
  have h := c3_query_override "format=AVIF&x=1" cfgPreserve (some "image/png")
  constructor
  · rw [h.1]
    decide
  · exact h.2 rfl (by decide) OutputFormat.avif (by decide)

/-- Counterexample to claim C3 as stated. The query format=avif&format=bad
contains a format parameter whose value is exactly avif, yet the parser
yields no override, because the later format parameter overwrites the
decision; the Accept header is then consulted after all. The companion
equations show the single-parameter query does resolve, and that with
the override mode on the handler falls back to the Accept header. -/
theorem c3_counterexample :
    parse_query_for_format "format=avif&format=bad" = (none, "") ∧
      parse_query_for_format "format=avif" = (some OutputFormat.avif, "") ∧
      desiredFormatOf cfgPreserve "format=avif&format=bad" (some "image/webp") =
        OutputFormat.webp := by
  refine ⟨by decide, by decide, by decide⟩

/-- A body that passes the conversion decision is within the size bound. -/
theorem size_le_of_should_convert {ct : String} {uf : Option OutputFormat}
    {desired : OutputFormat} {n mx : Nat}
    (h : should_convert_image ct uf desired n mx = true) : n ≤ mx := by
  by_contra hn
  have h3 : mx < n := not_le.mp hn
  unfold should_convert_image at h
  split_ifs at h <;> simp_all

/-- A path inside the proxied prefixes is not the root path. -/
theorem hroot_of_path {path : String}
    (hPath : (leadsWith "/media".toList path.toList ||
      leadsWith "/proxy".toList path.toList) = true) :
    (path == "/") = false := by
  cases hpq : path == "/"
  · rfl
  · have hp : path = "/" := eq_of_beq hpq
    rw [hp] at hPath
    exact absurd hPath (by decide)

/-- Reduction of the handler on a cache miss, a success status, a positive
conversion decision and a failing converter: the original bytes and
content type are served and cached, with the conversion branch taken. -/
theorem handler_success_conv_fail (cfg : MConfig) (cache : CacheKey → Option CachedResponse)
    (upstream : UpstreamResp)
    (convert : List Nat → OutputFormat → Except String (List Nat × String))
    (path q : String) (accept : Option String) (msg : String)
    (hPath : (leadsWith "/media".toList path.toList ||
      leadsWith "/proxy".toList path.toList) = true)
    (hMiss : cache (cacheKeyOf path q (desiredFormatOf cfg q accept)) = none)
    (hOk : isSuccess upstream.status = true)
    (hNeeds : should_convert_image (contentTypeOf upstream)
      (format_from_content_type (contentTypeOf upstream)) (desiredFormatOf cfg q accept)
      upstream.body.length cfg.maxItemSize = true)
    (hConv : convert upstream.body (desiredFormatOf cfg q accept) = Except.error msg) :
    proxyHandler cfg cache upstream convert path q accept =
      Outcome.fetched
        (buildResponse upstream.body (contentTypeOf upstream) cfg.viaHeader
          (preservedHeaders cfg upstream) false cfg.behindCloudflareFree)
        (some (cacheKeyOf path q (desiredFormatOf cfg q accept),
          ⟨upstream.body, contentTypeOf upstream, preservedHeaders cfg upstream⟩))
        true := by
  have hroot := hroot_of_path hPath
  have hsize : upstream.body.length ≤ cfg.maxItemSize := size_le_of_should_convert hNeeds
  unfold proxyHandler
  simp only [hroot, hPath, hMiss, hOk, hNeeds, hConv, Bool.not_true, Bool.not_false]
  simp [hsize]

/-- Claim C4. On an allowed path, a cache miss and a non-2xx upstream
status, the handler forwards the upstream response through
build_response_with_status with the original status and body, takes no
conversion branch, and performs no cache insertion; the result does not
depend on the converter. -/
theorem c4_non2xx_passthrough (cfg : MConfig) (cache : CacheKey → Option CachedResponse)
    (upstream : UpstreamResp)
    (convert : List Nat → OutputFormat → Except String (List Nat × String))
    (path q : String) (accept : Option String)
    (hPath : (leadsWith "/media".toList path.toList ||
      leadsWith "/proxy".toList path.toList) = true)
    (hMiss : cache (cacheKeyOf path q (desiredFormatOf cfg q accept)) = none)
    (hFail : isSuccess upstream.status = false) :
    proxyHandler cfg cache upstream convert path q accept =
        Outcome.fetched
          (buildResponseWithStatus upstream.body upstream.status cfg.viaHeader
            (preservedHeaders cfg upstream)) none false ∧
      (buildResponseWithStatus upstream.body upstream.status cfg.viaHeader
          (preservedHeaders cfg upstream)).status = upstream.status ∧
      (buildResponseWithStatus upstream.body upstream.status cfg.viaHeader
          (preservedHeaders cfg upstream)).body = upstream.body := by
  have hroot := hroot_of_path hPath
  refine ⟨?_, rfl, rfl⟩
  unfold proxyHandler
  simp only [hroot, hPath, hMiss, hFail, Bool.not_true, Bool.not_false]
  simp

/-- Witness for C4: a 404 upstream response is forwarded with status 404,
its body, no caching and no conversion. -/
theorem c4_non2xx_passthrough_witness :
    proxyHandler cfgPreserve emptyCache upstream404 convertAlwaysFails "/media/a" "" none =
      Outcome.fetched
        (buildResponseWithStatus upstream404.body upstream404.status cfgPreserve.viaHeader
          (preservedHeaders cfgPreserve upstream404)) none false :=
  (c4_non2xx_passthrough cfgPreserve emptyCache upstream404 convertAlwaysFails "/media/a" ""
    none (by decide) rfl (by decide)).1

/-- Claim C5. When the conversion decision is positive but the converter
fails, the client still receives a 200 response whose body is the
original upstream bytes and whose content-type header is the original
upstream content type; the failure is not surfaced. -/
theorem c5_conversion_failure_recovery (cfg : MConfig)
    (cache : CacheKey → Option CachedResponse) (upstream : UpstreamResp)
    (convert : List Nat → OutputFormat → Except String (List Nat × String))
    (path q : String) (accept : Option String) (msg : String)
    (hPath : (leadsWith "/media".toList path.toList ||
      leadsWith "/proxy".toList path.toList) = true)
    (hMiss : cache (cacheKeyOf path q (desiredFormatOf cfg q accept)) = none)
    (hOk : isSuccess upstream.status = true)
    (hNeeds : should_convert_image (contentTypeOf upstream)
      (format_from_content_type (contentTypeOf upstream)) (desiredFormatOf cfg q accept)
      upstream.body.length cfg.maxItemSize = true)
    (hConv : convert upstream.body (desiredFormatOf cfg q accept) = Except.error msg) :
    proxyHandler cfg cache upstream convert path q accept =
        Outcome.fetched
          (buildResponse upstream.body (contentTypeOf upstream) cfg.viaHeader
            (preservedHeaders cfg upstream) false cfg.behindCloudflareFree)
          (some (cacheKeyOf path q (desiredFormatOf cfg q accept),
            ⟨upstream.body, contentTypeOf upstream, preservedHeaders cfg upstream⟩))
          true ∧
      (buildResponse upstream.body (contentTypeOf upstream) cfg.viaHeader
          (preservedHeaders cfg upstream) false cfg.behindCloudflareFree).status = 200 ∧
      (buildResponse upstream.body (contentTypeOf upstream) cfg.viaHeader
          (preservedHeaders cfg upstream) false cfg.behindCloudflareFree).body =
        upstream.body ∧
      ("content-type", contentTypeOf upstream) ∈
        (buildResponse upstream.body (contentTypeOf upstream) cfg.viaHeader
          (preservedHeaders cfg upstream) false cfg.behindCloudflareFree).headers := by
  refine ⟨handler_success_conv_fail cfg cache upstream convert path q accept msg hPath hMiss
    hOk hNeeds hConv, rfl, rfl, ?_⟩
  unfold buildResponse
  simp

/-- Witness for C5: a JPEG upstream with a desired Avif format and a
failing converter is served as the original JPEG with status 200. -/
theorem c5_conversion_failure_recovery_witness :
    proxyHandler cfgPreserve emptyCache upstreamJpeg convertAlwaysFails "/media/a.jpg" ""
        (some "image/avif") =
      Outcome.fetched
        (buildResponse upstreamJpeg.body (contentTypeOf upstreamJpeg) cfgPreserve.viaHeader
          (preservedHeaders cfgPreserve upstreamJpeg) false cfgPreserve.behindCloudflareFree)
        (some (cacheKeyOf "/media/a.jpg" ""
            (desiredFormatOf cfgPreserve "" (some "image/avif")),
          ⟨upstreamJpeg.body, contentTypeOf upstreamJpeg,
            preservedHeaders cfgPreserve upstreamJpeg⟩))
        true :=
  (c5_conversion_failure_recovery cfgPreserve emptyCache upstreamJpeg convertAlwaysFails
    "/media/a.jpg" "" (some "image/avif") "decode failure" (by decide) rfl (by decide)
    (by decide) rfl).1

/-- Claim C10. When conversion is attempted and fails and the body is
within the size bound, the unconverted bytes with the original content
type are cached under the key whose tag is the desired format, and an
identical request against the updated cache is a HIT served from that
entry, for any upstream response and any converter, so conversion is not
retried while the entry lives. Expiry by time-to-live is modelled as the
entry being present in the cache map. -/
theorem c10_failed_conversion_cached (cfg : MConfig)
    (cache : CacheKey → Option CachedResponse) (upstream : UpstreamResp)
    (convert : List Nat → OutputFormat → Except String (List Nat × String))
    (path q : String) (accept : Option String) (msg : String)
    (hPath : (leadsWith "/media".toList path.toList ||
      leadsWith "/proxy".toList path.toList) = true)
    (hMiss : cache (cacheKeyOf path q (desiredFormatOf cfg q accept)) = none)
    (hOk : isSuccess upstream.status = true)
    (hNeeds : should_convert_image (contentTypeOf upstream)
      (format_from_content_type (contentTypeOf upstream)) (desiredFormatOf cfg q accept)
      upstream.body.length cfg.maxItemSize = true)
    (hConv : convert upstream.body (desiredFormatOf cfg q accept) = Except.error msg)
    (hSize : upstream.body.length ≤ cfg.maxItemSize) :
    proxyHandler cfg cache upstream convert path q accept =
        Outcome.fetched
          (buildResponse upstream.body (contentTypeOf upstream) cfg.viaHeader
            (preservedHeaders cfg upstream) false cfg.behindCloudflareFree)
          (some (cacheKeyOf path q (desiredFormatOf cfg q accept),
            ⟨upstream.body, contentTypeOf upstream, preservedHeaders cfg upstream⟩))
          true ∧
      ∀ (upstream2 : UpstreamResp)
        (convert2 : List Nat → OutputFormat → Except String (List Nat × String)),
        proxyHandler cfg
            (insertCache cache (cacheKeyOf path q (desiredFormatOf cfg q accept))
              ⟨upstream.body, contentTypeOf upstream, preservedHeaders cfg upstream⟩)
            upstream2 convert2 path q accept =
          Outcome.hit
            (buildResponse upstream.body (contentTypeOf upstream) cfg.viaHeader
              (preservedHeaders cfg upstream) true cfg.behindCloudflareFree) := by
  refine ⟨handler_success_conv_fail cfg cache upstream convert path q accept msg hPath hMiss
    hOk hNeeds hConv, ?_⟩
  intro upstream2 convert2
  have hroot := hroot_of_path hPath
  unfold proxyHandler
  simp only [hroot, hPath, Bool.not_true, Bool.not_false]
  simp [insertCache]

/-- Witness for C10: after the failed conversion of the JPEG body is
cached under the Avif-tagged key, the identical request is a HIT served
from the cache, even against a 404 upstream and any converter. -/
theorem c10_failed_conversion_cached_witness :
    proxyHandler cfgPreserve
        (insertCache emptyCache
          (cacheKeyOf "/media/a.jpg" "" (desiredFormatOf cfgPreserve "" (some "image/avif")))
          ⟨upstreamJpeg.body, contentTypeOf upstreamJpeg,
            preservedHeaders cfgPreserve upstreamJpeg⟩)
        upstream404 convertAlwaysFails "/media/a.jpg" "" (some "image/avif") =
      Outcome.hit
        (buildResponse upstreamJpeg.body (contentTypeOf upstreamJpeg) cfgPreserve.viaHeader
          (preservedHeaders cfgPreserve upstreamJpeg) true cfgPreserve.behindCloudflareFree) :=
  (c10_failed_conversion_cached cfgPreserve emptyCache upstreamJpeg convertAlwaysFails
    "/media/a.jpg" "" (some "image/avif") "decode failure" (by decide) rfl (by decide)
    (by decide) rfl (by decide)).2 upstream404 convertAlwaysFails

/-- The format tag distinguishes the five formats. -/
theorem formatTag_inj : ∀ {f f2 : OutputFormat}, formatTag f = formatTag f2 → f = f2 := by
  intro f f2 h
  cases f <;> cases f2 <;> first | rfl | exact absurd h (by decide)

/-- Claim C8. Cache keys are the pair of the resource identity, which is
the path joined with the original pre-override raw query, and the format
tag, equal exactly when both fields are; and a request whose key, built
from the original query, is present in the cache is answered from that
entry. -/
theorem c8_cache_key :
    (∀ (p q : String) (f : OutputFormat) (p2 q2 : String) (f2 : OutputFormat),
      cacheKeyOf p q f = cacheKeyOf p2 q2 f2 ↔
        (resourceId p q = resourceId p2 q2 ∧ f = f2)) ∧
      (∀ (cfg : MConfig) (cache : CacheKey → Option CachedResponse)
        (upstream : UpstreamResp)
        (convert : List Nat → OutputFormat → Except String (List Nat × String))
        (p q : String) (accept : Option String) (c : CachedResponse),
        (leadsWith "/media".toList p.toList || leadsWith "/proxy".toList p.toList) = true →
        cache (cacheKeyOf p q (desiredFormatOf cfg q accept)) = some c →
        proxyHandler cfg cache upstream convert p q accept =
          Outcome.hit (buildResponse c.data c.contentType cfg.viaHeader c.upstreamHeaders true
            cfg.behindCloudflareFree)) := by
  constructor
  · intro p q f p2 q2 f2
    constructor
    · intro h
      unfold cacheKeyOf at h
      injection h with h1 h2
      exact ⟨h1, formatTag_inj h2⟩
    · rintro ⟨h1, h2⟩
      unfold cacheKeyOf
      rw [h1, h2]
  · intro cfg cache upstream convert p q accept c hPath hHit
    have hroot := hroot_of_path hPath
    unfold proxyHandler
    simp only [hroot, hPath, hHit, Bool.not_true, Bool.not_false]
    simp

/-- Witness for C8: with the override mode on, the request for
/media/a.jpg with raw query format=avif&x=1 hits the entry keyed by the
unstripped query and the Avif tag. -/
theorem c8_cache_key_witness :
    proxyHandler cfgPreserve cacheOneAvif upstreamJpeg convertAlwaysFails "/media/a.jpg"
        "format=avif&x=1" none =
      Outcome.hit (buildResponse cachedAvifEntry.data cachedAvifEntry.contentType
        cfgPreserve.viaHeader cachedAvifEntry.upstreamHeaders true
        cfgPreserve.behindCloudflareFree) :=
  c8_cache_key.2 cfgPreserve cacheOneAvif upstreamJpeg convertAlwaysFails "/media/a.jpg"
    "format=avif&x=1" none cachedAvifEntry (by decide) (by decide)

/-- Copied upstream headers never carry a name on the exclusion list. -/
theorem filter_name_copyUpstream (hs : List (String × String)) (nm : String)
    (hnm : should_exclude_header nm = true) :
    (copyUpstream (some hs)).filter (fun kv => kv.1 == nm) = [] := by
  unfold copyUpstream
  induction hs with
  | nil => rfl
  | cons kv t ih =>
    cases hse : should_exclude_header kv.1
    · cases hknm : kv.1 == nm
      · simp [List.filter_cons, hse, hknm, ih]
      · exfalso
        have hk : kv.1 = nm := eq_of_beq hknm
        rw [hk, hnm] at hse
        exact absurd hse (by decide)
    · simp [List.filter_cons, hse, ih]

/-- The CORS header survives the exclusion list, so filtering the copied
upstream headers for it gives exactly the upstream occurrences. -/
theorem filter_acao_copyUpstream (hs : List (String × String)) :
    (copyUpstream (some hs)).filter (fun kv => kv.1 == acaoName) =
      hs.filter (fun kv => kv.1 == acaoName) := by
  unfold copyUpstream
  induction hs with
  | nil => rfl
  | cons kv t ih =>
    cases hknm : kv.1 == acaoName
    · cases hse : should_exclude_header kv.1
      · simp [List.filter_cons, hse, hknm, ih]
      · simp [List.filter_cons, hse, hknm, ih]
    · have hk : kv.1 = acaoName := eq_of_beq hknm
      have hse : should_exclude_header kv.1 = false := by
        rw [hk]
        decide
      simp [List.filter_cons, hse, hknm, ih]

/-- A header list with no CORS name filters to nothing on that name. -/
theorem filter_acao_of_any_false (hs : List (String × String))
    (h : hs.any (fun kv => kv.1 == acaoName) = false) :
    hs.filter (fun kv => kv.1 == acaoName) = [] := by
  apply List.filter_eq_nil_iff.mpr
  intro kv hkv
  intro hk
  have := List.any_eq_false.mp h kv hkv
  exact this hk

/-- Claim C6, amended. The header exclusion list is a single unconditional
denylist, applied to non-2xx passthrough exactly as to success
responses: Content-Length, Content-Type, Transfer-Encoding, Connection,
Via, Cache-Control and X-Cache-Status. Hence a non-2xx passthrough
response never carries a Content-Type or Cache-Control header at all,
and a success response carries exactly the proxy's own Content-Type.
The original claim restricted the proxy-owned part of the denylist to
success responses; the counterexample refutes that. -/
theorem c6_exclusion_unconditional :
    (∀ k : String, should_exclude_header k =
        (k == "content-length" || k == "content-type" || k == "transfer-encoding" ||
          k == "connection" || k == "via" || k == "cache-control" ||
          k == "x-cache-status")) ∧
      (∀ (d : List Nat) (st : Nat) (via : String) (hs : List (String × String)),
        ((buildResponseWithStatus d st via (some hs)).headers.all
          (fun kv => !(kv.1 == "content-type") && !(kv.1 == "cache-control"))) = true) ∧
      (∀ (d : List Nat) (ct via : String) (hs : List (String × String)) (hit bcf : Bool),
        (buildResponse d ct via (some hs) hit bcf).headers.filter
            (fun kv => kv.1 == "content-type") = [("content-type", ct)]) := by
  refine ⟨?_, ?_, ?_⟩
  · intro k
    simp only [should_exclude_header, excludedHeaderNames, List.contains_cons]
    simp [Bool.or_assoc]
  · intro d st via hs
    unfold buildResponseWithStatus
    simp only [List.all_append, Bool.and_eq_true]
    refine ⟨⟨?_, ?_⟩, ?_⟩
    · apply List.all_eq_true.mpr
      intro kv hkv
      unfold copyUpstream at hkv
      rw [List.mem_filter] at hkv
      have hse : should_exclude_header kv.1 = false := by
        cases hx : should_exclude_header kv.1
        · rfl
        · have h2 := hkv.2
          rw [hx] at h2
          exact absurd h2 (by decide)
      show (!(kv.1 == "content-type") && !(kv.1 == "cache-control")) = true
      have h1 : (kv.1 == "content-type") = false := by
        cases hx : kv.1 == "content-type"
        · rfl
        · have hk := eq_of_beq hx
          rw [hk] at hse
          exact absurd hse (by decide)
      have h2 : (kv.1 == "cache-control") = false := by
        cases hx : kv.1 == "cache-control"
        · rfl
        · have hk := eq_of_beq hx
          rw [hk] at hse
          exact absurd hse (by decide)
      rw [h1, h2]
      decide
    · simp only [List.all_cons, List.all_nil]
      decide
    · cases hc : upstreamHasCors (some hs)
      · decide
      · decide
  · intro d ct via hs hit bcf
    unfold buildResponse
    simp only [List.filter_append]
    rw [filter_name_copyUpstream hs "content-type" (by decide)]
    have e1 : (("content-type" : String) == "content-type") = true := by decide
    have e2 : (("via" : String) == "content-type") = false := by decide
    have e3 : (("cache-control" : String) == "content-type") = false := by decide
    have e4 : (("x-cache-status" : String) == "content-type") = false := by decide
    have e5 : (("vary" : String) == "content-type") = false := by decide
    have e6 : ((acaoName : String) == "content-type") = false := by decide
    cases hc : upstreamHasCors (some hs) <;> cases bcf <;>
      simp [List.filter_cons, e1, e2, e3, e4, e5, e6]

/-- Counterexample to claim C6 as stated. On a non-2xx passthrough with
header preservation on, the upstream Content-Type and Cache-Control
headers are dropped by the unconditional exclusion list: only the
surviving custom header, the Via header and the CORS star remain. -/
theorem c6_counterexample :
    (buildResponseWithStatus [1] 404 "akkoproxy/0.1.0"
        (some [("content-type", "image/png"), ("cache-control", "no-cache"),
          ("x-extra", "1")])).headers =
      [("x-extra", "1"), ("via", "akkoproxy/0.1.0"),
        ("access-control-allow-origin", "*")] := by
  decide

/-- Claim C7, amended. In both response builders the CORS header is
decided by the header set the builder receives: when upstream headers
are passed (header preservation on), the star is added only if they do
not already carry the header, and the upstream occurrences are copied
through unchanged; when no upstream headers are passed (preservation
off), the star is always added, even if the upstream response carried
the header. The original claim asserted the upstream value always wins
regardless of the preserve_upstream_headers flag; the counterexample
refutes that for a disabled flag. -/
theorem c7_cors_follows_upstream (d : List Nat) (ct via : String)
    (hs : List (String × String)) (hit bcf : Bool) (d2 : List Nat) (st : Nat) :
    ((buildResponse d ct via (some hs) hit bcf).headers.filter
        (fun kv => kv.1 == acaoName) =
      (if hs.any (fun kv => kv.1 == acaoName) then
        hs.filter (fun kv => kv.1 == acaoName)
      else [(acaoName, "*")])) ∧
      ((buildResponse d ct via none hit bcf).headers.filter
          (fun kv => kv.1 == acaoName) = [(acaoName, "*")]) ∧
      ((buildResponseWithStatus d2 st via (some hs)).headers.filter
          (fun kv => kv.1 == acaoName) =
        (if hs.any (fun kv => kv.1 == acaoName) then
          hs.filter (fun kv => kv.1 == acaoName)
        else [(acaoName, "*")])) ∧
      ((buildResponseWithStatus d2 st via none).headers.filter
          (fun kv => kv.1 == acaoName) = [(acaoName, "*")]) := by
  have e1 : (("content-type" : String) == acaoName) = false := by decide
  have e2 : (("via" : String) == acaoName) = false := by decide
  have e3 : (("cache-control" : String) == acaoName) = false := by decide
  have e4 : (("x-cache-status" : String) == acaoName) = false := by decide
  have e5 : (("vary" : String) == acaoName) = false := by decide
  have e6 : ((acaoName : String) == acaoName) = true := by decide
  refine ⟨?_, ?_, ?_, ?_⟩
  · unfold buildResponse
    simp only [List.filter_append]
    rw [filter_acao_copyUpstream]
    cases hc : hs.any (fun kv => kv.1 == acaoName)
    · have hnil := filter_acao_of_any_false hs hc
      have hcors : upstreamHasCors (some hs) = false := hc
      simp [hcors, hnil, List.filter_cons, e1, e2, e3, e4, e5, e6]
      cases bcf <;> simp [List.filter_cons, e5] <;> decide
    · have hcors : upstreamHasCors (some hs) = true := hc
      simp [hcors, List.filter_cons, e1, e2, e3, e4, e5, e6]
      cases bcf <;> simp [List.filter_cons, e5] <;> decide
  · unfold buildResponse
    simp only [List.filter_append]
    have hcors : upstreamHasCors none = false := rfl
    simp [hcors, copyUpstream, List.filter_cons, e1, e2, e3, e4, e5, e6]
    cases bcf <;> simp [List.filter_cons, e5] <;> decide
  · unfold buildResponseWithStatus
    simp only [List.filter_append]
    rw [filter_acao_copyUpstream]
    cases hc : hs.any (fun kv => kv.1 == acaoName)
    · have hnil := filter_acao_of_any_false hs hc
      have hcors : upstreamHasCors (some hs) = false := hc
      simp [hcors, hnil, List.filter_cons, e2, e6]
    · have hcors : upstreamHasCors (some hs) = true := hc
      simp [hcors, List.filter_cons, e2, e6]
  · unfold buildResponseWithStatus
    have hcors : upstreamHasCors none = false := rfl
    simp [hcors, copyUpstream, List.filter_cons, e2, e6]

/-- Counterexample to claim C7 as stated. With header preservation off,
the upstream success response carries a CORS header, yet the proxied
response carries the star value and not the upstream one: the builders
only see the preserved header set, which is empty. -/
theorem c7_counterexample :
    ("access-control-allow-origin", "*") ∈
        outcomeHeaders (proxyHandler cfgNoPreserve emptyCache upstreamCors convertAlwaysFails
          "/media/a" "" (some "*/*")) ∧
      ("access-control-allow-origin", "https://example.com") ∉
        outcomeHeaders (proxyHandler cfgNoPreserve emptyCache upstreamCors convertAlwaysFails
          "/media/a" "" (some "*/*")) ∧
      ("access-control-allow-origin", "https://example.com") ∈ upstreamCors.headers ∧
      cfgNoPreserve.preserveUpstreamHeaders = false := by
  refine ⟨by decide, by decide, by decide, rfl⟩

/-- Concatenation of strings is associative, through their character
data. -/
theorem strAppend_assoc (a b c : String) : a ++ b ++ c = a ++ (b ++ c) :=
  String.append_assoc a b c

/-- Claim C9, amended. The metrics handler returns status 200 with
content type text/plain; version=0.0.4 and a body consisting of the
comment line and then the two metric lines for the entry count and the
weighted size. The original claim said the body is exactly the two
metric lines; the counterexample shows the leading comment line. -/
theorem c9_metrics (n m : Nat) :
    metricsResponse n m =
      ⟨200, "text/plain; version=0.0.4",
        "# Cache Statistics\n" ++ ("cache_entries " ++ toString n ++ "\n") ++
          ("cache_size_bytes " ++ toString m ++ "\n")⟩ := by
  unfold metricsResponse metricsBody
  simp only [strAppend_assoc]

/-- Counterexample to claim C9 as stated: at zero entries and zero bytes
the body is not the bare two metric lines, because the handler prepends
the comment line. -/
theorem c9_counterexample :
    metricsBody 0 0 ≠ "cache_entries 0\ncache_size_bytes 0\n" ∧
      metricsBody 0 0 = "# Cache Statistics\ncache_entries 0\ncache_size_bytes 0\n" := by
  refine ⟨by decide, by decide⟩

end Akkoproxy
